import Mathlib

/-!
Verification of the figma-website-diff core pipeline.

This file gives a shallow embedding of the comparison pipeline of the
repository (backend/app/services/comparator.py, utils/color_utils.py,
utils/image_utils.py, utils/layout_utils.py, services/figma_extractor.py,
services/job_storage.py, tasks/comparison_tasks.py) and proves properties
of the embedded definitions.

Modelling conventions:
* Python floats are modelled by `ℚ`; `round(x, n)` is modelled by
  `roundTo n` (round half away from zero towards `+∞` via `⌊x + 1/2⌋`,
  which agrees with the source on every value that is not an exact tie).
* Colors are modelled as integer RGB triples (the source stores lowercase
  hex strings and converts with `hex_to_rgb`, a bijection on well-formed
  six-digit hex strings).
* The perceptually weighted color distance of `color_utils.color_distance`
  is `sqrt` of a rational quadratic form.  We embed the *squared* distance
  `dist2`; every comparison the source makes on distances is embedded by
  the equivalent comparison on squared values (both sides are
  non-negative, so `sqrt a ≤ b ↔ a ≤ b²`), see `isMatch`, `deltaPctLt10`,
  `deltaPctPos`.
* Python `set` iteration order is unspecified; we fix the order given by
  `List.dedup`.  No claim below depends on the particular order chosen.
* Display-only string fields (descriptions, `f"...%"` formatting) are not
  modelled; numeric payloads of emitted differences are kept exactly.
-/

namespace FigmaDiff

/-- Rounding to `n` decimal places, modelling Python `round(x, n)`. -/
def roundTo (n : ℕ) (x : ℚ) : ℚ := ((round (x * 10 ^ n) : ℤ) : ℚ) / 10 ^ n

/-- Rounding to one decimal place (`round(x, 1)`). -/
def round1 (x : ℚ) : ℚ := roundTo 1 x

/-- Rounding to two decimal places (`round(x, 2)`). -/
def round2 (x : ℚ) : ℚ := roundTo 2 x

/-- An RGB color with integer channels 0–255, the result of `hex_to_rgb`. -/
structure RGB where
  r : ℤ
  g : ℤ
  b : ℤ
deriving DecidableEq, Repr

/-- Channels of a color produced by `hex_to_rgb` lie in 0–255. -/
def validRGB (c : RGB) : Prop :=
  0 ≤ c.r ∧ c.r ≤ 255 ∧ 0 ≤ c.g ∧ c.g ≤ 255 ∧ 0 ≤ c.b ∧ c.b ≤ 255

instance (c : RGB) : Decidable (validRGB c) := by
  unfold validRGB; infer_instance

/-- Squared perceptually weighted distance of `color_distance(·, ·, "perceptual")`:
the source returns `sqrt((2 + r_mean/256)·r_diff² + 4·g_diff² + (2 + (255 - r_mean)/256)·b_diff²)`
with `r_mean = (r₁ + r₂)/2`; we keep the radicand. -/
def dist2 (c1 c2 : RGB) : ℚ :=
  let rMean : ℚ := ((c1.r : ℚ) + (c2.r : ℚ)) / 2
  let rd : ℚ := (c1.r : ℚ) - (c2.r : ℚ)
  let gd : ℚ := (c1.g : ℚ) - (c2.g : ℚ)
  let bd : ℚ := (c1.b : ℚ) - (c2.b : ℚ)
  (2 + rMean / 256) * rd * rd + 4 * gd * gd + (2 + (255 - rMean) / 256) * bd * bd

/-- Squared distance between black and white, the `max_distance` of
`ColorAnalyzer.compare_colors` (again kept squared). -/
def maxDist2 : ℚ := dist2 ⟨0, 0, 0⟩ ⟨255, 255, 255⟩

/-- Embedding of `ColorAnalyzer.compare_colors`'s `is_match`:
`distance ≤ tolerance`; in squared form `0 ≤ tol ∧ dist2 ≤ tol²`
(the distance is non-negative, so a negative tolerance never matches). -/
def isMatch (tol : ℚ) (c1 c2 : RGB) : Bool :=
  decide (0 ≤ tol ∧ dist2 c1 c2 ≤ tol * tol)

/-- Embedding of `delta_percentage < 10` on an emitted color difference.
The source computes `round(100·dist/maxDist, 2) < 10`, which (both sides
non-negative) is `dist/maxDist < 9.995/100`, i.e.
`dist2 · 20000² < 1999² · maxDist2`. -/
def deltaPctLt10 (d2 : ℚ) : Bool :=
  decide (d2 * 400000000 < 3996001 * maxDist2)

/-- Embedding of `delta_percentage > 0` on an emitted color difference.
The source value `round(100·dist/maxDist, 2)` is positive iff
`100·dist/maxDist ≥ 1/200`, i.e. `maxDist2 ≤ dist2 · 20000²`. -/
def deltaPctPos (d2 : ℚ) : Bool :=
  decide (maxDist2 ≤ d2 * 400000000)

/-- `DifferenceType` of `models/schemas.py`. -/
inductive DifferenceType
  | color
  | typography
  | spacing
  | dimension
  | layout
  | missingElement
  | extraElement
  | visual
deriving DecidableEq, Repr

/-- `SeverityLevel` of `models/schemas.py`. -/
inductive SeverityLevel
  | critical
  | warning
  | info
deriving DecidableEq, Repr

/-- Typed payload standing for the `figma_value` / `website_value` fields
(the source stores strings such as hex colors, font names and formatted
numbers; we keep the underlying datum). -/
inductive DiffVal
  | colorV : RGB → DiffVal
  | textV : String → DiffVal
  | numV : ℚ → DiffVal
deriving DecidableEq, Repr

/-- `Difference` of `models/schemas.py` (display-only description and
screenshot fields are not modelled; `delta` carries the numeric payload —
for color differences the squared perceptual distance of the reported
pair, for dimension differences the pixel delta, for visual differences
`100 − overall`). -/
structure Difference where
  id : String
  dtype : DifferenceType
  severity : SeverityLevel
  figmaValue : Option DiffVal
  websiteValue : Option DiffVal
  delta : Option ℚ
deriving DecidableEq, Repr

/-- `ComparisonSummary` of `models/schemas.py`. -/
structure ComparisonSummary where
  totalDifferences : ℕ
  critical : ℕ
  warnings : ℕ
  info : ℕ
  matchScore : ℚ
deriving DecidableEq, Repr

/-- One fill entry of a design token (`_extract_fills`): a type tag and,
for `SOLID` fills, the color. -/
structure Fill where
  ftype : String
  color : Option RGB
deriving DecidableEq, Repr

/-- Bounding box of a design token (`_extract_bounds`). -/
structure Bounds where
  x : ℚ
  y : ℚ
  width : ℚ
  height : ℚ
deriving DecidableEq, Repr

/-- One design token as consumed by the comparator: name, optional bounds,
fill list, and the `font_family` of the `typography` entry when the node is
a text node with a family (the layout dict of `_extract_layout` is always a
non-empty, hence truthy, dict, so its presence is not modelled). -/
structure DesignToken where
  name : String
  bounds : Option Bounds
  fills : List Fill
  fontFamily : Option String
deriving DecidableEq, Repr

/-- Extractor output as consumed by the comparator: `design_tokens` and the
local paths of `image_exports` (dict values, in order). -/
structure FigmaData where
  designTokens : List DesignToken
  imageExports : List String
deriving DecidableEq, Repr

/-- Site viewport. -/
structure Viewport where
  width : ℚ
  height : ℚ
deriving DecidableEq, Repr

/-- Renderer output as consumed by the comparator: the distinct site colors,
the font families of the font inventory, the viewport and the screenshot
path when captured. -/
structure WebsiteData where
  colors : List RGB
  fonts : List String
  viewport : Option Viewport
  screenshot : Option String
deriving DecidableEq, Repr

/-- Similarity scores returned by `image_utils.calculate_similarity`. -/
structure SimScores where
  ssim : ℚ
  mse : ℚ
  perceptualHash : ℚ
  overall : ℚ
deriving DecidableEq, Repr

/-- The `overall` line of `calculate_similarity`:
`round((ssim_percentage + mse_percentage + hash_percentage) / 3, 2)`. -/
def overallOf (ssimPct msePct hashPct : ℚ) : ℚ :=
  round2 ((ssimPct + msePct + hashPct) / 3)

/-- Embedding of `calculate_similarity`'s normalization: raw SSIM in `[-1,1]`,
raw MSE `≥ 0`, integer perceptual-hash Hamming distance. -/
def calculateSimilarity (ssimScore mseScore : ℚ) (hashDistance : ℤ) : SimScores :=
  let ssimPct := ssimScore * 100
  let msePct := max 0 (100 - mseScore / 100)
  let hashPct := max 0 (100 - (hashDistance : ℚ) * 100 / 64)
  { ssim := round2 ssimPct
    mse := round2 msePct
    perceptualHash := round2 hashPct
    overall := overallOf ssimPct msePct hashPct }

/-- Distinct design fill colors of `_compare_colors`: every `SOLID` fill
color of every design token, deduplicated (the source collects them in a
`set`). -/
def extractFigmaColors (tokens : List DesignToken) : List RGB :=
  (tokens.flatMap fun t =>
    t.fills.filterMap fun f => if f.ftype = "SOLID" then f.color else none).dedup

/-- The inner loop of `_compare_colors` over the site colors: returns
whether a color within tolerance was found (breaking the loop) and the
running minimum `(squared distance, color)` over the colors scanned so far
(`min_distance` starts at `float('inf')`, modelled by `none`).  The source
tracks `round(distance, 2)`; we track the squared distance, which can
differ only in which of two site colors at nearly equal distances is
recorded as closest, never in whether a difference is emitted. -/
def scanColors (tol : ℚ) (fc : RGB) : List RGB → Option (ℚ × RGB) → Bool × Option (ℚ × RGB)
  | [], best => (false, best)
  | w :: rest, best =>
    if isMatch tol fc w then (true, best)
    else
      let d := dist2 fc w
      match best with
      | none => scanColors tol fc rest (some (d, w))
      | some (m, c) =>
        if d < m then scanColors tol fc rest (some (d, w))
        else scanColors tol fc rest (some (m, c))

/-- The body of `_compare_colors` for one design fill color: no difference
when a tolerated match exists or no closest color was found (empty site
color set); otherwise one `color` difference whose severity is `warning`
when the delta percentage is below 10 and `critical` otherwise. -/
def compareColorForFigma (tol : ℚ) (webColors : List RGB) (fc : RGB) : Option Difference :=
  match scanColors tol fc webColors none with
  | (true, _) => none
  | (false, none) => none
  | (false, some (m, c)) =>
    some { id := ""
           dtype := DifferenceType.color
           severity := if deltaPctLt10 m then SeverityLevel.warning else SeverityLevel.critical
           figmaValue := some (DiffVal.colorV fc)
           websiteValue := some (DiffVal.colorV c)
           delta := some m }

/-- Embedding of `UIComparator._compare_colors`. -/
def compareColors (tol : ℚ) (figma : FigmaData) (web : WebsiteData) : List Difference :=
  (extractFigmaColors figma.designTokens).filterMap
    (compareColorForFigma tol web.colors.dedup)

/-- Design font families of `_compare_typography`: text tokens with a truthy
`font_family`, first occurrence kept. -/
def figmaFontFamilies (tokens : List DesignToken) : List String :=
  (tokens.filterMap fun t =>
    match t.fontFamily with
    | some f => if f = "" then none else some f
    | none => none).dedup

/-- Embedding of `UIComparator._compare_typography`: one `critical`
`typography` difference per design font family absent from the site's font
inventory. -/
def compareTypography (figma : FigmaData) (web : WebsiteData) : List Difference :=
  ((figmaFontFamilies figma.designTokens).filter fun f => decide (f ∉ web.fonts)).map fun f =>
    { id := ""
      dtype := DifferenceType.typography
      severity := SeverityLevel.critical
      figmaValue := some (DiffVal.textV f)
      websiteValue := none
      delta := none }

/-- Horizontal gap of `layout_utils.calculate_spacing` (the `primary_spacing`
for direction `"horizontal"`). -/
def hSpacing (b1 b2 : Bounds) : ℚ :=
  if b1.x + b1.width < b2.x then b2.x - (b1.x + b1.width)
  else if b2.x + b2.width < b1.x then b1.x - (b2.x + b2.width)
  else 0

/-- Consecutive-pair spacings of `calculate_spacing_consistency`. -/
def pairSpacings : List Bounds → List ℚ
  | b1 :: b2 :: rest => hSpacing b1 b2 :: pairSpacings (b2 :: rest)
  | _ => []

/-- The `consistent` flag of `LayoutAnalyzer.calculate_spacing_consistency`
(for ≥ 3 elements): sort by `x`, take consecutive horizontal gaps, and
require the maximum deviation from the mean gap to be within the spacing
tolerance. -/
def spacingConsistent (tolS : ℚ) (els : List Bounds) : Bool :=
  if els.length < 3 then false
  else
    let sorted := els.mergeSort fun a b => decide (a.x ≤ b.x)
    let sp := pairSpacings sorted
    match sp with
    | [] => false
    | _ =>
      let avg := sp.sum / (sp.length : ℚ)
      let maxDev := (sp.map fun s => |s - avg|).foldr max 0
      decide (maxDev ≤ tolS)

/-- Embedding of `UIComparator._compare_layout`: with at least three
bounded design elements, an `info` `spacing` difference when their spacing
is inconsistent. -/
def compareLayout (tolS : ℚ) (figma : FigmaData) : List Difference :=
  let els := figma.designTokens.filterMap fun t => t.bounds
  if 3 ≤ els.length then
    if spacingConsistent tolS els then []
    else
      [{ id := ""
         dtype := DifferenceType.spacing
         severity := SeverityLevel.info
         figmaValue := none
         websiteValue := none
         delta := none }]
  else []

/-- Embedding of `UIComparator._compare_dimensions`: the root (first) design
token's bounds against the site viewport; a `warning` `dimension` difference
when the width delta exceeds the dimension tolerance. -/
def compareDimensions (tolD : ℚ) (figma : FigmaData) (web : WebsiteData) : List Difference :=
  match figma.designTokens with
  | [] => []
  | root :: _ =>
    match root.bounds, web.viewport with
    | some b, some vp =>
      let widthDiff := |b.width - vp.width|
      if tolD < widthDiff then
        [{ id := ""
           dtype := DifferenceType.dimension
           severity := SeverityLevel.warning
           figmaValue := some (DiffVal.numV b.width)
           websiteValue := some (DiffVal.numV vp.width)
           delta := some widthDiff }]
      else []
    | _, _ => []

/-- Embedding of `UIComparator._create_visual_differences`: one `visual`
difference when the overall similarity is below 90, `critical` below 70 and
`warning` otherwise. -/
def createVisualDifferences (scores : SimScores) : List Difference :=
  if scores.overall < 90 then
    [{ id := ""
       dtype := DifferenceType.visual
       severity := if scores.overall < 70 then SeverityLevel.critical else SeverityLevel.warning
       figmaValue := some (DiffVal.numV scores.overall)
       websiteValue := some (DiffVal.textV "Visual rendering")
       delta := some (100 - scores.overall) }]
  else []

/-- Count of differences with a given severity (`sum(1 for d in differences
if d.severity == s)`). -/
def countSeverity (s : SeverityLevel) (ds : List Difference) : ℕ :=
  ds.countP fun d => d.severity == s

/-- The effective visual score of `_calculate_summary`: the source tests
`if similarity_scores and similarity_scores.get("overall"):`, so both an
absent visual pass and an overall score of exactly `0` (falsy) yield `100`. -/
def effectiveVisualScore (scores : Option SimScores) : ℚ :=
  match scores with
  | some s => if s.overall = 0 then 100 else s.overall
  | none => 100

/-- Embedding of `UIComparator._calculate_summary`. -/
def calculateSummary (diffs : List Difference) (scores : Option SimScores) : ComparisonSummary :=
  let c := countSeverity SeverityLevel.critical diffs
  let w := countSeverity SeverityLevel.warning diffs
  let i := countSeverity SeverityLevel.info diffs
  let visualComponent := effectiveVisualScore scores * (6 / 10)
  let structuralPenalty : ℚ := (c : ℚ) * 3 + (w : ℚ) * (3 / 2) + (i : ℚ) * (1 / 2)
  let structuralComponent := max 0 (40 - structuralPenalty)
  { totalDifferences := diffs.length
    critical := c
    warnings := w
    info := i
    matchScore := round1 (max 0 (min 100 (visualComponent + structuralComponent))) }

/-- `DiffReport` of `models/schemas.py` (URL fields are display-only and not
modelled). -/
structure DiffReport where
  jobId : String
  status : String
  summary : ComparisonSummary
  differences : List Difference
deriving DecidableEq, Repr

/-- Assignment of the `uuid.uuid4()` identifiers: the source draws one fresh
id per created difference, in creation order; we model the draw sequence as
a function of the creation index. -/
def assignIds (gen : ℕ → String) : ℕ → List Difference → List Difference
  | _, [] => []
  | n, d :: rest => { d with id := gen n } :: assignIds gen (n + 1) rest

/-- Embedding of `UIComparator.compare`: the four structural passes in
source order, then the visual pass when both a design image export and a
site screenshot exist (`sim` stands for `calculate_similarity` on the two
image files), then the summary. -/
def compare (sim : String → String → SimScores) (gen : ℕ → String)
    (tolC tolS tolD : ℚ) (figma : FigmaData) (web : WebsiteData) (jobId : String) : DiffReport :=
  let structural :=
    compareColors tolC figma web ++ compareTypography figma web ++
      compareLayout tolS figma ++ compareDimensions tolD figma web
  let visualScores : Option SimScores :=
    match figma.imageExports, web.screenshot with
    | fimg :: _, some wimg => some (sim fimg wimg)
    | _, _ => none
  let visualDiffs :=
    match visualScores with
    | some s => if s.overall < 90 then createVisualDifferences s else []
    | none => []
  let diffs := assignIds gen 0 (structural ++ visualDiffs)
  { jobId := jobId
    status := "completed"
    summary := calculateSummary diffs visualScores
    differences := diffs }

/-- Erasure of the generated difference ids, for comparing reports "ids
excluded". -/
def eraseIds (r : DiffReport) : DiffReport :=
  { r with differences := r.differences.map fun d => { d with id := "" } }

/-! Extractor: rate-limit retry (`figma_extractor._make_request_with_retry`,
`FigmaExtractor.get_file_data`) and the module-level response cache. -/

/-- Terminal outcome of an extractor HTTP call: either the bare HTTP error
raised by `raise_for_status` or the `ValueError` with the user-facing
rate-limit hint that `get_file_data` raises on a 429. -/
inductive FetchError
  | http : ℕ → FetchError
  | rateLimited : String → FetchError
deriving DecidableEq, Repr

deriving instance DecidableEq for Except

/-- The user-facing hint text of `get_file_data`'s 429 `ValueError`. -/
def rateLimitHint : String :=
  "Figma API rate limit exceeded. Please wait 1-2 minutes and try again. Personal tokens are limited to 2 requests per minute. TIP: The same design is cached for 30 minutes - try again with the same URL!"

/-- Result of the retry loop: how many HTTP requests were issued, the sleep
delays performed, and the final outcome. -/
structure RetryResult where
  requests : ℕ
  delays : List ℚ
  result : Except FetchError ℕ
deriving DecidableEq, Repr

/-- The loop of `_make_request_with_retry` (`for attempt in
range(max_retries + 1)`), indexed by the number of retries still allowed
(`retriesLeft = max_retries − attempt`, so `attempt < max_retries` is
`retriesLeft > 0`): `resp` gives the status code of the request issued at
each attempt; a 429 with retries left sleeps `base_delay · 2^attempt` and
retries, a 429 on the last attempt and any other `≥ 400` status raise the
HTTP error immediately (no non-429 failure is ever retried). -/
def retryLoop (resp : ℕ → ℕ) (baseDelay : ℚ) (attempt nReq : ℕ) (ds : List ℚ) :
    ℕ → RetryResult
  | 0 =>
    let status := resp attempt
    if status = 429 then ⟨nReq + 1, ds, Except.error (FetchError.http 429)⟩
    else if 400 ≤ status then ⟨nReq + 1, ds, Except.error (FetchError.http status)⟩
    else ⟨nReq + 1, ds, Except.ok status⟩
  | left + 1 =>
    let status := resp attempt
    if status = 429 then
      retryLoop resp baseDelay (attempt + 1) (nReq + 1) (ds ++ [baseDelay * 2 ^ attempt]) left
    else if 400 ≤ status then ⟨nReq + 1, ds, Except.error (FetchError.http status)⟩
    else ⟨nReq + 1, ds, Except.ok status⟩

/-- Embedding of `FigmaExtractor._make_request_with_retry` (defaults:
`max_retries = 3`, `base_delay = 30.0`). -/
def makeRequestWithRetry (resp : ℕ → ℕ) (maxRetries : ℕ) (baseDelay : ℚ) : RetryResult :=
  retryLoop resp baseDelay 0 0 [] maxRetries

/-- One entry of the module-level `_figma_cache`. -/
structure CacheEntry where
  data : ℕ
  timestamp : ℚ
  fileKey : String
deriving DecidableEq, Repr

/-- The cache TTL, `CACHE_DURATION_MINUTES = 30` (time is measured in
minutes). -/
def cacheDurationMinutes : ℚ := 30

/-- Cache key of `get_cache_key`: `[file_key, endpoint] (+ node_id)` joined
with `":"`; the source additionally md5-hashes the joined string, which we
abstract away (the digest is used only as an opaque key). -/
def getCacheKey (fileKey : String) (nodeId : Option String) (endpoint : String) : String :=
  String.intercalate ":" ([fileKey, endpoint] ++ nodeId.toList)

/-- First entry of the cache association list for a key. -/
def lookupCache : List (String × CacheEntry) → String → Option CacheEntry
  | [], _ => none
  | p :: rest, key => if p.1 = key then some p.2 else lookupCache rest key

/-- Removal of a key (`del _figma_cache[cache_key]`). -/
def removeCache : List (String × CacheEntry) → String → List (String × CacheEntry)
  | [], _ => []
  | p :: rest, key => if p.1 = key then removeCache rest key else p :: removeCache rest key

/-- Embedding of `get_cached_response`: a present entry younger than the
TTL is returned; an expired entry is deleted. Returns the (possibly
updated) cache as well. -/
def getCachedResponse (cache : List (String × CacheEntry)) (key : String) (now : ℚ) :
    Option ℕ × List (String × CacheEntry) :=
  match lookupCache cache key with
  | some e =>
    if now - e.timestamp < cacheDurationMinutes then (some e.data, cache)
    else (none, removeCache cache key)
  | none => (none, cache)

/-- Embedding of `set_cached_response`. -/
def setCachedResponse (cache : List (String × CacheEntry)) (key : String)
    (data : ℕ) (now : ℚ) (fileKey : String) : List (String × CacheEntry) :=
  (key, ⟨data, now, fileKey⟩) :: removeCache cache key

/-- Outcome of a `get_file_data` call: the result, the cache afterwards,
and how many network requests were issued (0 on a cache hit, 1 otherwise —
`get_file_data` performs a single `session.get` with no retry). -/
structure FileDataOutcome where
  result : Except FetchError ℕ
  cache : List (String × CacheEntry)
  requests : ℕ
deriving DecidableEq, Repr

/-- Embedding of `FigmaExtractor.get_file_data`: cache check first (when
`use_cache` and not `force_refresh`); on a miss one network request whose
response has status `respStatus` and payload `respData`; a 429 raises the
rate-limit `ValueError` with the user-facing hint, any other `≥ 400` status
re-raises the HTTP error, and a success is cached. -/
def getFileData (useCache forceRefresh : Bool) (cache : List (String × CacheEntry))
    (now : ℚ) (fileKey : String) (respStatus respData : ℕ) : FileDataOutcome :=
  let key := getCacheKey fileKey none "file"
  let fetch : List (String × CacheEntry) → FileDataOutcome := fun c =>
    if respStatus = 429 then
      ⟨Except.error (FetchError.rateLimited rateLimitHint), c, 1⟩
    else if 400 ≤ respStatus then ⟨Except.error (FetchError.http respStatus), c, 1⟩
    else
      ⟨Except.ok respData,
        if useCache then setCachedResponse c key respData now fileKey else c, 1⟩
  if useCache && !forceRefresh then
    match getCachedResponse cache key now with
    | (some d, c') => ⟨Except.ok d, c', 0⟩
    | (none, c') => fetch c'
  else fetch cache

/-! Orchestrator: responsive aggregation (`process_responsive_comparison`)
and the progress-update trace of `process_comparison_job`. -/

/-- `ViewportResult` of `models/schemas.py` (screenshot URLs not modelled). -/
structure ViewportResult where
  viewportName : String
  viewportWidth : ℚ
  viewportHeight : ℚ
  matchScore : ℚ
  totalDifferences : ℕ
  critical : ℕ
  warnings : ℕ
  info : ℕ
  differences : List Difference
deriving DecidableEq, Repr

/-- Construction of one per-viewport result from its comparison report, as
in the loop of `process_responsive_comparison`. -/
def viewportResultOf (name : String) (w h : ℚ) (r : DiffReport) : ViewportResult :=
  { viewportName := name
    viewportWidth := w
    viewportHeight := h
    matchScore := r.summary.matchScore
    totalDifferences := r.summary.totalDifferences
    critical := r.summary.critical
    warnings := r.summary.warnings
    info := r.summary.info
    differences := r.differences }

/-- The overall-score aggregation of `process_responsive_comparison`:
`sum(v.match_score)/len(viewport_results) if viewport_results else 0`. -/
def overallScoreOf (rs : List ViewportResult) : ℚ :=
  if rs = [] then 0 else (rs.map fun v => v.matchScore).sum / (rs.length : ℚ)

/-- The overall difference count: `sum(v.total_differences)`. -/
def totalDiffsOf (rs : List ViewportResult) : ℕ :=
  (rs.map fun v => v.totalDifferences).sum

/-- The per-viewport results of a responsive job whose sub-pipelines all
completed, from the list of `(name, width, height, report)` tuples. -/
def buildViewportResults (runs : List (String × ℚ × ℚ × DiffReport)) : List ViewportResult :=
  runs.map fun p => viewportResultOf p.1 p.2.1 p.2.2.1 p.2.2.2

/-- `ProgressUpdate` of `models/schemas.py`. -/
structure ProgressUpdate where
  jobId : String
  status : String
  progress : ℕ
  message : String
  currentStep : Option String
deriving DecidableEq, Repr

/-- The progress updates `process_comparison_job` issues on the success
path, in order. -/
def successUpdates (jobId : String) : List ProgressUpdate :=
  [⟨jobId, "processing", 10, "Starting comparison...", some "initialization"⟩,
   ⟨jobId, "processing", 20, "Extracting Figma design data...", some "figma_extraction"⟩,
   ⟨jobId, "processing", 50, "Analyzing website...", some "website_analysis"⟩,
   ⟨jobId, "processing", 75, "Comparing designs...", some "comparison"⟩,
   ⟨jobId, "processing", 90, "Generating reports...", some "report_generation"⟩,
   ⟨jobId, "completed", 100, "Comparison complete!", none⟩]

/-- The single update the `except` handler of `process_comparison_job`
issues: status `failed` with `progress=0`. -/
def failedUpdate (jobId err : String) : ProgressUpdate :=
  ⟨jobId, "failed", 0, "Error: " ++ err, none⟩

/-- The progress-update trace of one `process_comparison_job` run: on
success all six updates; when the phase after the `k`-th update raises, the
first `k` updates followed by the `failed` update (the first statement of
the `try` block is the first update, and nothing after the `completed`
update can raise, so `1 ≤ k ≤ 5`; larger `k` are clamped). -/
def jobTrace (jobId : String) : Option (ℕ × String) → List ProgressUpdate
  | none => successUpdates jobId
  | some (k, err) => (successUpdates jobId).take (min k 5) ++ [failedUpdate jobId err]

/-- Status of the `i`-th update of a trace (out-of-range indices read as an
empty status). -/
def statusAt : List ProgressUpdate → ℕ → String
  | [], _ => ""
  | u :: _, 0 => u.status
  | _ :: rest, n + 1 => statusAt rest n

/-- Percent of the `i`-th update of a trace. -/
def pctAt : List ProgressUpdate → ℕ → ℕ
  | [], _ => 0
  | u :: _, 0 => u.progress
  | _ :: rest, n + 1 => pctAt rest n

/-- A terminal status. -/
def isTerminalStatus (s : String) : Bool := s == "completed" || s == "failed"

/-- The monotonicity property claimed of a progress trace: between any two
updates up to and including the first terminal one, percent does not
decrease. -/
def percentMonotoneUntilTerminal (tr : List ProgressUpdate) : Prop :=
  ∀ i j : ℕ, i ≤ j → j < tr.length →
    (∀ k : ℕ, k < j → isTerminalStatus (statusAt tr k) = false) →
    pctAt tr i ≤ pctAt tr j

/-- Modelled from the spec, for comparison with `calculateSummary`: the
scoring sentence reads `match_score = 0.6 × visual_score (or 100 if no
visual pass) + max(0, 40 − (3×critical + 1.5×warning + 0.5×info))`, clamped
to `[0,100]` and rounded to one decimal — i.e. the visual score defaults to
100 only when no visual pass ran. -/
def specMatchScore (diffs : List Difference) (scores : Option SimScores) : ℚ :=
  let c := countSeverity SeverityLevel.critical diffs
  let w := countSeverity SeverityLevel.warning diffs
  let i := countSeverity SeverityLevel.info diffs
  let visualScore : ℚ :=
    match scores with
    | some s => s.overall
    | none => 100
  round1 (max 0 (min 100 (visualScore * (6 / 10) +
    max 0 (40 - ((c : ℚ) * 3 + (w : ℚ) * (3 / 2) + (i : ℚ) * (1 / 2))))))

/-- Test whether a difference is the color difference reported for a given
design fill color. -/
def colorDiffFor (fc : RGB) (d : Difference) : Bool :=
  d.dtype == DifferenceType.color && d.figmaValue == some (DiffVal.colorV fc)

/-- A design input whose single token carries one solid fill `#10b981`. -/
def figCex : FigmaData :=
  { designTokens := [{ name := "Frame", bounds := none,
                       fills := [{ ftype := "SOLID", color := some ⟨16, 185, 129⟩ }],
                       fontFamily := none }]
    imageExports := [] }

/-- A site capture whose color inventory is empty. -/
def webCex : WebsiteData :=
  { colors := [], fonts := [], viewport := none, screenshot := none }

/-- A design input whose single token carries one solid fill
`#7c3aed` = (124, 58, 237). -/
def figWit : FigmaData :=
  { designTokens := [{ name := "Frame", bounds := none,
                       fills := [{ ftype := "SOLID", color := some ⟨124, 58, 237⟩ }],
                       fontFamily := none }]
    imageExports := [] }

/-- A site capture whose single color (124, 58, 238) is within the default
tolerance of `#7c3aed`. -/
def webMatch : WebsiteData :=
  { colors := [⟨124, 58, 238⟩], fonts := [], viewport := none, screenshot := none }

/-- A site capture whose single color `#10b981` = (16, 185, 129) is far from
`#7c3aed`. -/
def webFar : WebsiteData :=
  { colors := [⟨16, 185, 129⟩], fonts := [], viewport := none, screenshot := none }

/-- A similarity result whose overall score is exactly 0 (a completely
dissimilar image pair). -/
def zeroScores : SimScores :=
  { ssim := 0, mse := 0, perceptualHash := 0, overall := 0 }

/-- A similarity result with overall score 99.94, as produced by
`calculate_similarity` on raw inputs SSIM `0.9982`, MSE `0`, hash distance
`0` (components 99.82, 100 and 100 average to 99.94). -/
def almostPerfectScores : SimScores :=
  { ssim := 9982 / 100, mse := 100, perceptualHash := 100, overall := 9994 / 100 }

/-! Helper lemmas. -/

theorem round1_nonneg {x : ℚ} (h : 0 ≤ x) : 0 ≤ round1 x := by
  unfold round1 roundTo
  have h1 : (0 : ℤ) ≤ round (x * 10 ^ 1) := by
    rw [round_eq]
    have h2 : ((0 : ℤ) : ℚ) ≤ x * 10 ^ 1 + 1 / 2 := by push_cast; nlinarith
    exact Int.le_floor.mpr h2
  have h1' : (0 : ℚ) ≤ ((round (x * 10 ^ 1) : ℤ) : ℚ) := by exact_mod_cast h1
  exact div_nonneg h1' (by norm_num)

theorem round1_le_100 {x : ℚ} (h : x ≤ 100) : round1 x ≤ 100 := by
  unfold round1 roundTo
  have h1 : round (x * 10 ^ 1) < (1001 : ℤ) := by
    rw [round_eq, Int.floor_lt]
    push_cast
    nlinarith
  have h1' : ((round (x * 10 ^ 1) : ℤ) : ℚ) ≤ 1000 := by
    have : round (x * 10 ^ 1) ≤ (1000 : ℤ) := by omega
    exact_mod_cast this
  rw [div_le_iff₀ (by norm_num)]
  linarith

theorem round1_eq_100_iff {x : ℚ} (h : x ≤ 100) : round1 x = 100 ↔ 1999 / 20 ≤ x := by
  unfold round1 roundTo
  rw [round_eq]
  constructor
  · intro hx
    rw [div_eq_iff (by norm_num : ((10 : ℚ) ^ 1) ≠ 0)] at hx
    have h1 : ⌊x * 10 ^ 1 + 1 / 2⌋ = 1000 := by exact_mod_cast hx
    have h2 : (1000 : ℚ) ≤ x * 10 ^ 1 + 1 / 2 := by
      calc (1000 : ℚ) = ((1000 : ℤ) : ℚ) := by norm_num
        _ = ((⌊x * 10 ^ 1 + 1 / 2⌋ : ℤ) : ℚ) := by rw [h1]
        _ ≤ x * 10 ^ 1 + 1 / 2 := Int.floor_le _
    nlinarith
  · intro hx
    have h1 : ⌊x * 10 ^ 1 + 1 / 2⌋ = 1000 := by
      apply Int.floor_eq_iff.mpr
      push_cast
      constructor <;> nlinarith
    rw [h1]
    norm_num

theorem countSeverity_sum (ds : List Difference) :
    countSeverity SeverityLevel.critical ds + countSeverity SeverityLevel.warning ds +
      countSeverity SeverityLevel.info ds = ds.length := by
  induction ds with
  | nil => rfl
  | cons d rest ih =>
    unfold countSeverity at *
    rw [List.countP_cons, List.countP_cons, List.countP_cons, List.length_cons]
    cases h : d.severity <;> simp [h] <;> omega

/-! Claim C1. -/

/-- Claim C1, counterexample: with an empty difference list and a visual
similarity result whose overall score is exactly 0, the code's match score
is 100 while the claimed formula (visual_score defaults to 100 only when no
visual pass ran) yields 40. -/
theorem matchScore_formula_cex :
    (calculateSummary [] (some zeroScores)).matchScore = 100 ∧
    specMatchScore [] (some zeroScores) = 40 ∧
    (calculateSummary [] (some zeroScores)).matchScore ≠ specMatchScore [] (some zeroScores) := by
  have h1 : (calculateSummary [] (some zeroScores)).matchScore = 100 := by
    norm_num [calculateSummary, effectiveVisualScore, countSeverity, zeroScores,
      round1, roundTo, round_eq]
  have h2 : specMatchScore [] (some zeroScores) = 40 := by
    norm_num [specMatchScore, countSeverity, zeroScores, round1, roundTo, round_eq]
  refine ⟨h1, h2, ?_⟩
  rw [h1, h2]
  norm_num

/-- Claim C1 (amended): the summary's match score is
`0.6 × visual_score + max(0, 40 − (3×critical + 1.5×warning + 0.5×info))`,
clamped to `[0,100]` and rounded to one decimal, where `visual_score` is the
overall visual similarity, defaulting to 100 when no visual pass ran *or*
when the visual result's overall score is exactly 0. -/
theorem matchScore_formula (diffs : List Difference) (scores : Option SimScores) :
    (calculateSummary diffs scores).matchScore =
      round1 (max 0 (min 100 (
        (match scores with
         | none => (100 : ℚ)
         | some s => if s.overall = 0 then 100 else s.overall) * (6 / 10) +
        max 0 (40 - ((countSeverity SeverityLevel.critical diffs : ℚ) * 3 +
                     (countSeverity SeverityLevel.warning diffs : ℚ) * (3 / 2) +
                     (countSeverity SeverityLevel.info diffs : ℚ) * (1 / 2)))))) := by
  cases scores with
  | none => rfl
  | some s => rfl

/-! Claim C10. -/

/-- Claim C10: a visual similarity result whose overall score is exactly 0
is treated like an absent visual pass — the summary (and hence the match
score, computed from a visual score of 100) is identical. -/
theorem overall_zero_like_no_visual (diffs : List Difference) (s : SimScores)
    (h : s.overall = 0) :
    calculateSummary diffs (some s) = calculateSummary diffs none := by
  unfold calculateSummary effectiveVisualScore
  simp [h]

/-- Witness for claim C10 at a concrete completely-dissimilar result. -/
theorem overall_zero_like_no_visual_witness :
    calculateSummary [] (some zeroScores) = calculateSummary [] none :=
  overall_zero_like_no_visual [] zeroScores rfl

/-! Claim C6. -/

/-- Claim C6, counterexample: at normalized inputs SSIM 98 %, inverse-MSE
95 %, inverse-hash 90 %, the stored overall score is 94.33 — neither 94.3
as claimed nor the exact arithmetic mean 94.3̅. -/
theorem visual_overall_cex :
    overallOf 98 95 90 = 9433 / 100 ∧
    overallOf 98 95 90 ≠ 943 / 10 ∧
    overallOf 98 95 90 ≠ (98 + 95 + 90) / 3 := by
  have h1 : overallOf 98 95 90 = 9433 / 100 := by
    norm_num [overallOf, round2, roundTo, round_eq]
  refine ⟨h1, by rw [h1]; norm_num, by rw [h1]; norm_num⟩

/-- Claim C6 (amended): the overall visual score is the arithmetic mean of
the three normalized measures rounded to two decimals; exactly one visual
difference is emitted iff the overall score is below 90, with severity
critical below 70 and warning otherwise; the scenario (98, 95, 90) gives
overall 94.33 (94.3 at one decimal) and no difference, while (98, 95, 40)
gives overall 77.67 (77.7 at one decimal) and one warning difference. -/
theorem visual_pass_behaviour :
    (∀ s m h : ℚ, overallOf s m h = round2 ((s + m + h) / 3)) ∧
    (∀ s : SimScores,
      (createVisualDifferences s).length = (if s.overall < 90 then 1 else 0) ∧
      ∀ d ∈ createVisualDifferences s,
        d.dtype = DifferenceType.visual ∧
        d.severity = (if s.overall < 70 then SeverityLevel.critical else SeverityLevel.warning)) ∧
    (overallOf 98 95 90 = 9433 / 100 ∧ round1 (9433 / 100) = 943 / 10 ∧
      createVisualDifferences ⟨98, 95, 90, 9433 / 100⟩ = []) ∧
    (overallOf 98 95 40 = 7767 / 100 ∧ round1 (7767 / 100) = 777 / 10 ∧
      (createVisualDifferences ⟨98, 95, 40, 7767 / 100⟩).map (fun d => d.severity) =
        [SeverityLevel.warning]) := by
  refine ⟨fun s m h => rfl, fun s => ?_,
    ⟨by norm_num [overallOf, round2, roundTo, round_eq],
     by norm_num [round1, roundTo, round_eq],
     by norm_num [createVisualDifferences]⟩,
    ⟨by norm_num [overallOf, round2, roundTo, round_eq],
     by norm_num [round1, roundTo, round_eq],
     by norm_num [createVisualDifferences]⟩⟩
  unfold createVisualDifferences
  split
  · simp
  · simp

/-- Witness for claim C6's general emission rule at a concrete score. -/
theorem visual_pass_behaviour_witness :
    (createVisualDifferences ⟨98, 95, 40, 7767 / 100⟩).length = 1 := by
  have h := (visual_pass_behaviour.2.1 ⟨98, 95, 40, 7767 / 100⟩).1
  rw [h]
  norm_num

/-! Claim C5. -/

/-- Claim C5, counterexample: with no differences and a visual similarity
result of overall 99.94 — reachable from `calculate_similarity` on raw
inputs SSIM 0.9982, MSE 0, hash distance 0 — the match score is exactly 100
although the visual pass ran and its score is not 100. -/
theorem matchScore_100_iff_cex :
    calculateSimilarity (9982 / 10000) 0 0 = almostPerfectScores ∧
    (calculateSummary [] (some almostPerfectScores)).matchScore = 100 ∧
    almostPerfectScores.overall ≠ 100 := by
  refine ⟨?_, ?_, by norm_num [almostPerfectScores]⟩
  · unfold calculateSimilarity almostPerfectScores overallOf
    norm_num [round2, roundTo, round_eq]
  · norm_num [calculateSummary, effectiveVisualScore, countSeverity, almostPerfectScores,
      round1, roundTo, round_eq]

/-- Claim C5 (amended): the match score always lies in `[0,100]`; it equals
100 iff there are no differences and either the visual pass did not run,
its overall score is exactly 0 (which the summary treats as an absent
pass), or its overall score is at least `1199/12 ≈ 99.917` (near-perfect
scores round up to exactly 100). -/
theorem matchScore_range_and_100_iff (diffs : List Difference) (scores : Option SimScores)
    (hle : ∀ s : SimScores, scores = some s → s.overall ≤ 100) :
    (0 ≤ (calculateSummary diffs scores).matchScore ∧
      (calculateSummary diffs scores).matchScore ≤ 100) ∧
    ((calculateSummary diffs scores).matchScore = 100 ↔
      diffs = [] ∧ (scores = none ∨
        ∃ s : SimScores, scores = some s ∧ (s.overall = 0 ∨ 1199 / 12 ≤ s.overall))) := by
  have heff_le : effectiveVisualScore scores ≤ 100 := by
    cases scores with
    | none => norm_num [effectiveVisualScore]
    | some s =>
      by_cases h0 : s.overall = 0
      · simp [effectiveVisualScore, h0]
      · simp only [effectiveVisualScore, if_neg h0]
        exact hle s rfl
  set c := countSeverity SeverityLevel.critical diffs with hc
  set w := countSeverity SeverityLevel.warning diffs with hw
  set i := countSeverity SeverityLevel.info diffs with hi
  set e := effectiveVisualScore scores with he
  set t := e * (6 / 10) + max 0 (40 - ((c : ℚ) * 3 + (w : ℚ) * (3 / 2) + (i : ℚ) * (1 / 2)))
    with ht
  have hms : (calculateSummary diffs scores).matchScore = round1 (max 0 (min 100 t)) := rfl
  have hclamp0 : (0 : ℚ) ≤ max 0 (min 100 t) := le_max_left _ _
  have hclamp100 : max 0 (min 100 t) ≤ 100 := max_le (by norm_num) (min_le_left _ _)
  refine ⟨⟨hms ▸ round1_nonneg hclamp0, hms ▸ round1_le_100 hclamp100⟩, ?_⟩
  rw [hms, round1_eq_100_iff hclamp100]
  have hclamp_iff : (1999 / 20 : ℚ) ≤ max 0 (min 100 t) ↔ 1999 / 20 ≤ t := by
    constructor
    · intro hx
      by_contra h'
      push_neg at h'
      have h1 : min 100 t < 1999 / 20 := lt_of_le_of_lt (min_le_right _ _) h'
      have h2 : max 0 (min 100 t) < 1999 / 20 := max_lt (by norm_num) h1
      linarith
    · intro hx
      have h1 : (1999 / 20 : ℚ) ≤ min 100 t := le_min (by norm_num) hx
      exact h1.trans (le_max_right _ _)
  rw [hclamp_iff]
  rcases List.eq_nil_or_concat diffs with hnil | hne
  case inl =>
    subst hnil
    have hc0 : c = 0 := rfl
    have hw0 : w = 0 := rfl
    have hi0 : i = 0 := rfl
    have ht' : t = e * (6 / 10) + 40 := by
      rw [ht, hc0, hw0, hi0]
      norm_num
    rw [ht']
    have hmain : (1999 / 20 : ℚ) ≤ e * (6 / 10) + 40 ↔ 1199 / 12 ≤ e := by
      constructor <;> intro hx <;> linarith
    rw [hmain]
    cases scores with
    | none =>
      have he' : e = 100 := by rw [he]; rfl
      rw [he']
      constructor
      · intro _
        exact ⟨rfl, Or.inl rfl⟩
      · intro _
        norm_num
    | some s =>
      by_cases h0 : s.overall = 0
      · have he' : e = 100 := by rw [he]; simp [effectiveVisualScore, h0]
        rw [he']
        constructor
        · intro _
          exact ⟨rfl, Or.inr ⟨s, rfl, Or.inl h0⟩⟩
        · intro _
          norm_num
      · have he' : e = s.overall := by rw [he]; simp [effectiveVisualScore, h0]
        rw [he']
        constructor
        · intro hx
          exact ⟨rfl, Or.inr ⟨s, rfl, Or.inr hx⟩⟩
        · rintro ⟨-, hor⟩
          rcases hor with h | ⟨s', hs', hor'⟩
          · exact absurd h (by simp)
          · have hss : s' = s := by injection hs' with h''; exact h''.symm
            subst hss
            rcases hor' with h | h
            · exact absurd h h0
            · exact h
  case inr =>
    have hlen : 1 ≤ diffs.length := by
      rcases hne with ⟨l, a, rfl⟩
      simp
    have hsum : c + w + i = diffs.length := countSeverity_sum diffs
    have hp : (1 : ℚ) ≤ (c : ℚ) + (w : ℚ) + (i : ℚ) := by
      have : 1 ≤ c + w + i := hsum ▸ hlen
      exact_mod_cast this
    have hpen : max 0 (40 - ((c : ℚ) * 3 + (w : ℚ) * (3 / 2) + (i : ℚ) * (1 / 2))) ≤ 79 / 2 := by
      apply max_le (by norm_num)
      have h3 : (1 / 2 : ℚ) ≤ (c : ℚ) * 3 + (w : ℚ) * (3 / 2) + (i : ℚ) * (1 / 2) := by
        have hc' : (0 : ℚ) ≤ (c : ℚ) := by positivity
        have hw' : (0 : ℚ) ≤ (w : ℚ) := by positivity
        have hi' : (0 : ℚ) ≤ (i : ℚ) := by positivity
        nlinarith
      linarith
    have htle : t ≤ 199 / 2 := by
      rw [ht]
      nlinarith [heff_le, hpen]
    have hdne : diffs ≠ [] := by
      rcases hne with ⟨l, a, rfl⟩
      simp
    constructor
    · intro hx
      linarith
    · rintro ⟨h, -⟩
      exact absurd h hdne

/-- Witness for claim C5 at no differences and no visual pass. -/
theorem matchScore_range_and_100_iff_witness :
    (0 ≤ (calculateSummary [] none).matchScore ∧
      (calculateSummary [] none).matchScore ≤ 100) ∧
    ((calculateSummary [] none).matchScore = 100 ↔
      ([] : List Difference) = [] ∧ ((none : Option SimScores) = none ∨
        ∃ s : SimScores, none = some s ∧ (s.overall = 0 ∨ 1199 / 12 ≤ s.overall))) :=
  matchScore_range_and_100_iff [] none (fun _ h => nomatch h)

/-! Claim C8. -/

/-- Claim C8: for a responsive job whose per-viewport sub-pipelines all
completed, the overall match score is the arithmetic mean of the
per-viewport match scores and the overall difference count is the sum of
the per-viewport difference counts. -/
theorem responsive_aggregation (runs : List (String × ℚ × ℚ × DiffReport)) (h : runs ≠ []) :
    overallScoreOf (buildViewportResults runs) =
      (runs.map fun p => p.2.2.2.summary.matchScore).sum / (runs.length : ℚ) ∧
    totalDiffsOf (buildViewportResults runs) =
      (runs.map fun p => p.2.2.2.summary.totalDifferences).sum := by
  have hne : buildViewportResults runs ≠ [] := by
    unfold buildViewportResults
    simpa using h
  constructor
  · unfold overallScoreOf
    rw [if_neg hne]
    unfold buildViewportResults
    rw [List.map_map, List.length_map]
    rfl
  · unfold totalDiffsOf buildViewportResults
    rw [List.map_map]
    rfl

/-- Witness for claim C8 at a concrete two-viewport job. -/
theorem responsive_aggregation_witness :
    overallScoreOf (buildViewportResults
      [("desktop", 1920, 1080, ⟨"j", "completed", ⟨0, 0, 0, 0, 90⟩, []⟩),
       ("mobile", 375, 667, ⟨"j", "completed", ⟨2, 1, 1, 0, 70⟩, []⟩)]) = (90 + 70) / 2 ∧
    totalDiffsOf (buildViewportResults
      [("desktop", 1920, 1080, ⟨"j", "completed", ⟨0, 0, 0, 0, 90⟩, []⟩),
       ("mobile", 375, 667, ⟨"j", "completed", ⟨2, 1, 1, 0, 70⟩, []⟩)]) = 2 := by
  have h := responsive_aggregation
    [("desktop", 1920, 1080, ⟨"j", "completed", ⟨0, 0, 0, 0, 90⟩, []⟩),
     ("mobile", 375, 667, ⟨"j", "completed", ⟨2, 1, 1, 0, 70⟩, []⟩)] (by decide)
  refine ⟨?_, ?_⟩
  · rw [h.1]; norm_num
  · rw [h.2]; rfl

/-! Claim C3. -/

/-- Claim C3, counterexample: when every attempt answers 429, the retrying
request path exhausts its retries and fails with the bare HTTP 429 error —
not with the rate-limit error carrying the user-facing hint; the hint is
raised only by the file fetch, which issues a single request and never
retries. -/
theorem rateLimit_retry_cex :
    (makeRequestWithRetry (fun _ => 429) 3 30).result = Except.error (FetchError.http 429) ∧
    FetchError.http 429 ≠ FetchError.rateLimited rateLimitHint ∧
    (getFileData true false [] 0 "key" 429 7).requests = 1 ∧
    (getFileData true false [] 0 "key" 429 7).result =
      Except.error (FetchError.rateLimited rateLimitHint) := by
  refine ⟨rfl, by decide, rfl, rfl⟩

/-- Claim C3 (amended): requests made through `_make_request_with_retry`
(node and image fetches) retry an HTTP 429 with delays
`base_delay · 2^attempt` for at most 3 retries and, once exhausted, fail
with the final HTTP 429 error itself; no non-429 failure is ever retried;
the file-data fetch performs no retry at all — a single 429 immediately
fails with the `RateLimited` error carrying the user-facing
retry-later hint. -/
theorem rateLimit_retry_behaviour (resp : ℕ → ℕ) (base : ℚ) (a n : ℕ) (ds : List ℚ)
    (cache : List (String × CacheEntry)) (now : ℚ) (fileKey : String) (pd : ℕ) :
    ((∀ i : ℕ, i ≤ 3 → resp i = 429) →
      makeRequestWithRetry resp 3 base =
        ⟨4, [base * 2 ^ 0, base * 2 ^ 1, base * 2 ^ 2], Except.error (FetchError.http 429)⟩) ∧
    (resp a ≠ 429 → 400 ≤ resp a → ∀ left : ℕ,
      retryLoop resp base a n ds left =
        ⟨n + 1, ds, Except.error (FetchError.http (resp a))⟩) ∧
    (lookupCache cache (getCacheKey fileKey none "file") = none →
      getFileData true false cache now fileKey 429 pd =
        ⟨Except.error (FetchError.rateLimited rateLimitHint), cache, 1⟩) := by
  refine ⟨?_, ?_, ?_⟩
  · intro h
    have h0 := h 0 (by omega)
    have h1 := h 1 (by omega)
    have h2 := h 2 (by omega)
    have h3 := h 3 (by omega)
    unfold makeRequestWithRetry
    simp [retryLoop, h0, h1, h2, h3]
  · intro hne h400 left
    cases left <;> simp [retryLoop, hne, h400]
  · intro hl
    simp [getFileData, getCachedResponse, hl]

/-- Witness for claim C3's amended behaviour at concrete responses. -/
theorem rateLimit_retry_behaviour_witness :
    makeRequestWithRetry (fun _ => 429) 3 30 =
      ⟨4, [30 * 2 ^ 0, 30 * 2 ^ 1, 30 * 2 ^ 2], Except.error (FetchError.http 429)⟩ ∧
    retryLoop (fun _ => 500) 30 0 0 [] 3 = ⟨1, [], Except.error (FetchError.http 500)⟩ ∧
    getFileData true false [] 0 "key" 429 7 =
      ⟨Except.error (FetchError.rateLimited rateLimitHint), [], 1⟩ := by
  refine ⟨(rateLimit_retry_behaviour (fun _ => 429) 30 0 0 [] [] 0 "key" 7).1
      (fun i _ => rfl), ?_, ?_⟩
  · exact (rateLimit_retry_behaviour (fun _ => 500) 30 0 0 [] [] 0 "key" 7).2.1
      (by norm_num) (by norm_num) 3
  · exact (rateLimit_retry_behaviour (fun _ => 429) 30 0 0 [] [] 0 "key" 7).2.2 rfl

/-! Claim C4. -/

theorem lookupCache_removeCache (c : List (String × CacheEntry)) (k : String) :
    lookupCache (removeCache c k) k = none := by
  induction c with
  | nil => rfl
  | cons p rest ih =>
    by_cases h : p.1 = k <;> simp [lookupCache, removeCache, h, ih]

theorem lookupCache_setCachedResponse (c : List (String × CacheEntry)) (k : String)
    (d : ℕ) (t : ℚ) (fk : String) :
    lookupCache (setCachedResponse c k d t fk) k = some ⟨d, t, fk⟩ := by
  simp [lookupCache, setCachedResponse]

/-- Claim C4: with caching enabled and no forced refresh, (a) a successful
cold fetch issues one network request and stores the payload under the
`(file_id, node_id, endpoint)` key with the current time; (b) a second call
within the 30-minute TTL of the stored entry is answered from the cache and
issues no network request; (c) a call after the TTL has expired discards
the stale entry and issues a new network request. -/
theorem cache_ttl_behaviour (cache : List (String × CacheEntry)) (t0 t1 : ℚ)
    (fileKey fk0 : String) (d0 st pd st0 pd0 : ℕ) :
    (lookupCache cache (getCacheKey fileKey none "file") = none → st0 ≠ 429 → st0 < 400 →
      getFileData true false cache t0 fileKey st0 pd0 =
        ⟨Except.ok pd0,
          setCachedResponse cache (getCacheKey fileKey none "file") pd0 t0 fileKey, 1⟩ ∧
      lookupCache (setCachedResponse cache (getCacheKey fileKey none "file") pd0 t0 fileKey)
        (getCacheKey fileKey none "file") = some ⟨pd0, t0, fileKey⟩) ∧
    (lookupCache cache (getCacheKey fileKey none "file") = some ⟨d0, t0, fk0⟩ →
      t1 - t0 < cacheDurationMinutes →
      getFileData true false cache t1 fileKey st pd = ⟨Except.ok d0, cache, 0⟩) ∧
    (lookupCache cache (getCacheKey fileKey none "file") = some ⟨d0, t0, fk0⟩ →
      cacheDurationMinutes ≤ t1 - t0 →
      (getFileData true false cache t1 fileKey st pd).requests = 1 ∧
      lookupCache (getFileData true false cache t1 fileKey st pd).cache
        (getCacheKey fileKey none "file") ≠ some ⟨d0, t0, fk0⟩) := by
  refine ⟨?_, ?_, ?_⟩
  · intro hl hne hlt
    have h400 : ¬ 400 ≤ st0 := by omega
    constructor
    · simp [getFileData, getCachedResponse, hl, hne, h400]
    · exact lookupCache_setCachedResponse _ _ _ _ _
  · intro hl httl
    simp [getFileData, getCachedResponse, hl, httl]
  · intro hl httl
    have hnotlt : ¬ t1 - t0 < cacheDurationMinutes := not_lt.mpr httl
    have ht0t1 : t0 < t1 := by
      unfold cacheDurationMinutes at httl
      linarith
    by_cases h429 : st = 429
    · constructor
      · simp [getFileData, getCachedResponse, hl, hnotlt, h429]
      · simp [getFileData, getCachedResponse, hl, hnotlt, h429, lookupCache_removeCache]
    · by_cases h400 : 400 ≤ st
      · constructor
        · simp [getFileData, getCachedResponse, hl, hnotlt, h429, h400]
        · simp [getFileData, getCachedResponse, hl, hnotlt, h429, h400, lookupCache_removeCache]
      · constructor
        · simp [getFileData, getCachedResponse, hl, hnotlt, h429, h400]
        · have hres : (getFileData true false cache t1 fileKey st pd).cache =
              setCachedResponse (removeCache cache (getCacheKey fileKey none "file"))
                (getCacheKey fileKey none "file") pd t1 fileKey := by
            simp [getFileData, getCachedResponse, hl, hnotlt, h429, h400]
          rw [hres, lookupCache_setCachedResponse]
          intro heq
          have h2 : t1 = t0 := congrArg CacheEntry.timestamp (Option.some.inj heq)
          linarith

/-- Witness for claim C4 at a concrete cold fetch, a hit 10 minutes later
and an expired call 40 minutes later. -/
theorem cache_ttl_behaviour_witness :
    (getFileData true false [] 0 "f" 200 5 =
      ⟨Except.ok 5, setCachedResponse [] (getCacheKey "f" none "file") 5 0 "f", 1⟩ ∧
     lookupCache (setCachedResponse [] (getCacheKey "f" none "file") 5 0 "f")
       (getCacheKey "f" none "file") = some ⟨5, 0, "f"⟩) ∧
    getFileData true false [("f:file", ⟨5, 0, "f"⟩)] 10 "f" 200 9 =
      ⟨Except.ok 5, [("f:file", ⟨5, 0, "f"⟩)], 0⟩ ∧
    (getFileData true false [("f:file", ⟨5, 0, "f"⟩)] 40 "f" 200 9).requests = 1 ∧
    lookupCache (getFileData true false [("f:file", ⟨5, 0, "f"⟩)] 40 "f" 200 9).cache
      (getCacheKey "f" none "file") ≠ some ⟨5, 0, "f"⟩ := by
  refine ⟨(cache_ttl_behaviour [] 0 10 "f" "f" 5 200 9 200 5).1 rfl (by norm_num) (by norm_num),
    (cache_ttl_behaviour [("f:file", ⟨5, 0, "f"⟩)] 0 10 "f" "f" 5 200 9 200 5).2.1 rfl
      (by norm_num [cacheDurationMinutes]),
    (cache_ttl_behaviour [("f:file", ⟨5, 0, "f"⟩)] 0 40 "f" "f" 5 200 9 200 5).2.2 rfl
      (by norm_num [cacheDurationMinutes])⟩

/-! Claim C9. -/

theorem pctAt_take_append (l rest : List ProgressUpdate) :
    ∀ m i : ℕ, i < m → i < l.length → pctAt (l.take m ++ rest) i = pctAt l i := by
  induction l with
  | nil =>
    intro m i _ h2
    simp at h2
  | cons u tl ih =>
    intro m i h1 h2
    cases m with
    | zero => omega
    | succ m' =>
      cases i with
      | zero => rfl
      | succ i' => exact ih m' i' (by omega) (by simpa using h2)

theorem statusAt_take_append (l rest : List ProgressUpdate) :
    ∀ m i : ℕ, i < m → i < l.length → statusAt (l.take m ++ rest) i = statusAt l i := by
  induction l with
  | nil =>
    intro m i _ h2
    simp at h2
  | cons u tl ih =>
    intro m i h1 h2
    cases m with
    | zero => omega
    | succ m' =>
      cases i with
      | zero => rfl
      | succ i' => exact ih m' i' (by omega) (by simpa using h2)

theorem statusAt_append_last (f : ProgressUpdate) :
    ∀ l : List ProgressUpdate, statusAt (l ++ [f]) l.length = f.status := by
  intro l
  induction l with
  | nil => rfl
  | cons u tl ih => exact ih

theorem successUpdates_pct_mono (jobId : String) :
    ∀ i j : ℕ, i ≤ j → j < 6 →
      pctAt (successUpdates jobId) i ≤ pctAt (successUpdates jobId) j := by
  intro i j hij hj
  interval_cases j <;> interval_cases i <;> exact Nat.le_of_ble_eq_true rfl

theorem successUpdates_status_processing (jobId : String) :
    ∀ i : ℕ, i < 5 → statusAt (successUpdates jobId) i = "processing" := by
  intro i hi
  interval_cases i <;> rfl

/-- Claim C9, counterexample: on a run that fails after the second progress
update, the issued percents are 10, 20 and then 0 — the percent decreases
at the very update with which the job reaches the terminal `failed` status,
so the percent sequence is not monotone up to the first terminal update. -/
theorem progress_monotone_cex :
    ¬ percentMonotoneUntilTerminal (jobTrace "job" (some (2, "boom"))) := by
  intro h
  have hterm : ∀ k : ℕ, k < 2 →
      isTerminalStatus (statusAt (jobTrace "job" (some (2, "boom"))) k) = false := by
    intro k hk
    interval_cases k <;> decide
  have h20 := h 1 2 (by omega) (by decide) hterm
  exact absurd h20 (by decide)

/-- Claim C9 (amended): the percent of the updates issued by one job run is
non-decreasing over all updates before the first terminal one, and the
success trace (whose terminal update is `completed` at 100) is monotone up
to and including its terminal update; each update carries a single phase
(the model's one `currentStep` field); the `failed` update resets percent
to 0, and a `failed` update is always the last of its trace (no further
transitions). -/
theorem progress_trace_behaviour (jobId err : String) (failure : Option (ℕ × String)) :
    (∀ i j : ℕ, i ≤ j → j < (jobTrace jobId failure).length →
      (∀ k : ℕ, k ≤ j → isTerminalStatus (statusAt (jobTrace jobId failure) k) = false) →
      pctAt (jobTrace jobId failure) i ≤ pctAt (jobTrace jobId failure) j) ∧
    percentMonotoneUntilTerminal (jobTrace jobId none) ∧
    ((failedUpdate jobId err).status = "failed" ∧ (failedUpdate jobId err).progress = 0) ∧
    (∀ i : ℕ, i < (jobTrace jobId failure).length →
      statusAt (jobTrace jobId failure) i = "failed" →
      i = (jobTrace jobId failure).length - 1) := by
  have hlen6 : (successUpdates jobId).length = 6 := rfl
  refine ⟨?_, ?_, ⟨rfl, rfl⟩, ?_⟩
  · cases failure with
    | none =>
      intro i j hij hj hterm
      rcases Nat.lt_or_ge j 5 with hj5 | hj5
      · exact successUpdates_pct_mono jobId i j hij (by omega)
      · have hj' : j = 5 := by
          simp only [jobTrace] at hj
          omega
        subst hj'
        have hT : isTerminalStatus (statusAt (jobTrace jobId none) 5) = true := rfl
        rw [hterm 5 le_rfl] at hT
        exact absurd hT (by decide)
    | some ke =>
      obtain ⟨k, err'⟩ := ke
      intro i j hij hj hterm
      have hm5 : min k 5 ≤ 5 := Nat.min_le_right _ _
      have htakelen : ((successUpdates jobId).take (min k 5)).length = min k 5 := by
        rw [List.length_take, hlen6]
        omega
      have hlen : (jobTrace jobId (some (k, err'))).length = min k 5 + 1 := by
        simp only [jobTrace, List.length_append, htakelen, List.length_singleton]
      rcases Nat.lt_or_ge j (min k 5) with hjm | hjm
      · have hpi : pctAt (jobTrace jobId (some (k, err'))) i =
            pctAt (successUpdates jobId) i := by
          exact pctAt_take_append _ _ _ _ (by omega) (by omega)
        have hpj : pctAt (jobTrace jobId (some (k, err'))) j =
            pctAt (successUpdates jobId) j := by
          exact pctAt_take_append _ _ _ _ (by omega) (by omega)
        rw [hpi, hpj]
        exact successUpdates_pct_mono jobId i j hij (by omega)
      · have hj' : j = min k 5 := by omega
        have hst : statusAt (jobTrace jobId (some (k, err'))) j = "failed" := by
          rw [hj']
          have := statusAt_append_last (failedUpdate jobId err')
            ((successUpdates jobId).take (min k 5))
          rw [htakelen] at this
          exact this
        have := hterm j le_rfl
        rw [hst] at this
        exact absurd this (by decide)
  · intro i j hij hj hterm
    exact successUpdates_pct_mono jobId i j hij (by simpa [jobTrace] using hj)
  · cases failure with
    | none =>
      intro i hi hst
      have hlen : (jobTrace jobId none).length = 6 := rfl
      have hi6 : i < 6 := by omega
      rcases Nat.lt_or_ge i 5 with hi5 | hi5
      · have hst' : statusAt (successUpdates jobId) i = "failed" := hst
        have hcontra : ("processing" : String) = "failed" :=
          (successUpdates_status_processing jobId i hi5).symm.trans hst'
        exact absurd hcontra (by decide)
      · omega
    | some ke =>
      obtain ⟨k, err'⟩ := ke
      intro i hi hst
      have hm5 : min k 5 ≤ 5 := Nat.min_le_right _ _
      have htakelen : ((successUpdates jobId).take (min k 5)).length = min k 5 := by
        rw [List.length_take, hlen6]
        omega
      have hlen : (jobTrace jobId (some (k, err'))).length = min k 5 + 1 := by
        simp only [jobTrace, List.length_append, htakelen, List.length_singleton]
      rcases Nat.lt_or_ge i (min k 5) with him | him
      · have hsti : statusAt (jobTrace jobId (some (k, err'))) i =
            statusAt (successUpdates jobId) i := by
          exact statusAt_take_append _ _ _ _ (by omega) (by omega)
        rw [hsti, successUpdates_status_processing jobId i (by omega)] at hst
        exact absurd hst (by decide)
      · omega

/-- Witness for claim C9's amended behaviour on a concrete success trace. -/
theorem progress_trace_behaviour_witness :
    pctAt (jobTrace "j" none) 1 ≤ pctAt (jobTrace "j" none) 4 ∧
    (failedUpdate "j" "boom").progress = 0 :=
  ⟨(progress_trace_behaviour "j" "boom" none).1 1 4 (by omega) (by decide)
      (fun k hk => by interval_cases k <;> decide),
   (progress_trace_behaviour "j" "boom" none).2.2.1.2⟩

/-! Claim C7. -/

theorem assignIds_map_erase (gen : ℕ → String) :
    ∀ (n : ℕ) (l : List Difference),
      (assignIds gen n l).map (fun d => { d with id := "" }) =
        l.map (fun d => { d with id := "" }) := by
  intro n l
  induction l generalizing n with
  | nil => rfl
  | cons d rest ih => simp [assignIds, ih]

theorem countSeverity_assignIds (gen : ℕ → String) (s : SeverityLevel) :
    ∀ (n : ℕ) (l : List Difference),
      countSeverity s (assignIds gen n l) = countSeverity s l := by
  intro n l
  induction l generalizing n with
  | nil => rfl
  | cons d rest ih =>
    unfold countSeverity at *
    simp [assignIds, List.countP_cons, ih]

theorem length_assignIds (gen : ℕ → String) :
    ∀ (n : ℕ) (l : List Difference), (assignIds gen n l).length = l.length := by
  intro n l
  induction l generalizing n with
  | nil => rfl
  | cons d rest ih => simp [assignIds, ih]

theorem calculateSummary_assignIds (gen : ℕ → String) (n : ℕ) (l : List Difference)
    (scores : Option SimScores) :
    calculateSummary (assignIds gen n l) scores = calculateSummary l scores := by
  unfold calculateSummary
  rw [countSeverity_assignIds, countSeverity_assignIds, countSeverity_assignIds,
    length_assignIds]

/-- Claim C7: the comparator is deterministic — it is a pure function of
the design data, the site capture, the tolerances and the similarity
computation, and the only varying output, the generated difference ids,
does not influence anything else: two runs differing only in the id supply
produce the same difference list (ids erased), the same order, and the
same summary (hence the same match score). -/
theorem comparator_deterministic (sim : String → String → SimScores)
    (gen1 gen2 : ℕ → String) (tolC tolS tolD : ℚ) (figma : FigmaData) (web : WebsiteData)
    (jobId : String) :
    eraseIds (compare sim gen1 tolC tolS tolD figma web jobId) =
      eraseIds (compare sim gen2 tolC tolS tolD figma web jobId) ∧
    (compare sim gen1 tolC tolS tolD figma web jobId).summary =
      (compare sim gen2 tolC tolS tolD figma web jobId).summary := by
  unfold compare eraseIds
  constructor
  · simp only [DiffReport.mk.injEq]
    refine ⟨trivial, trivial, ?_, ?_⟩
    · rw [calculateSummary_assignIds, calculateSummary_assignIds]
    · rw [assignIds_map_erase, assignIds_map_erase]
  · simp only
    rw [calculateSummary_assignIds, calculateSummary_assignIds]

/-! Claim C2. -/

theorem scanColors_fst (tol : ℚ) (fc : RGB) :
    ∀ (l : List RGB) (best : Option (ℚ × RGB)),
      (scanColors tol fc l best).1 = l.any (isMatch tol fc) := by
  intro l
  induction l with
  | nil => intro best; rfl
  | cons w rest ih =>
    intro best
    cases hw : isMatch tol fc w with
    | true => simp [scanColors, hw]
    | false =>
      simp only [scanColors, hw, Bool.false_eq_true, if_false, List.any_cons,
        Bool.false_or]
      cases best with
      | none => exact ih _
      | some mc =>
        obtain ⟨m, c⟩ := mc
        by_cases hd : dist2 fc w < m
        · simp only [if_pos hd]
          exact ih _
        · simp only [if_neg hd]
          exact ih _

theorem scanColors_snd_isSome (tol : ℚ) (fc : RGB) :
    ∀ (l : List RGB) (m : ℚ) (c : RGB),
      ((scanColors tol fc l (some (m, c))).2).isSome = true := by
  intro l
  induction l with
  | nil => intro m c; rfl
  | cons w rest ih =>
    intro m c
    cases hw : isMatch tol fc w with
    | true => simp [scanColors, hw]
    | false =>
      simp only [scanColors, hw, Bool.false_eq_true, if_false]
      by_cases hd : dist2 fc w < m
      · simp only [if_pos hd]
        exact ih _ _
      · simp only [if_neg hd]
        exact ih _ _

theorem scanColors_snd_of_nomatch (tol : ℚ) (fc : RGB) (l : List RGB)
    (hne : l ≠ []) (hno : l.any (isMatch tol fc) = false) :
    ((scanColors tol fc l none).2).isSome = true := by
  cases l with
  | nil => exact absurd rfl hne
  | cons w rest =>
    have hw : isMatch tol fc w = false := by
      rw [List.any_cons] at hno
      exact (Bool.or_eq_false_iff.mp hno).1
    simp only [scanColors, hw, Bool.false_eq_true, if_false]
    exact scanColors_snd_isSome tol fc rest _ _

theorem scanColors_snd_good (tol : ℚ) (fc : RGB) (S : List RGB) :
    ∀ (l : List RGB) (best : Option (ℚ × RGB)),
      (∀ m c, best = some (m, c) →
        m = dist2 fc c ∧ isMatch tol fc c = false ∧ c ∈ S) →
      (∀ c ∈ l, c ∈ S) →
      ∀ m c, (scanColors tol fc l best).2 = some (m, c) →
        m = dist2 fc c ∧ isMatch tol fc c = false ∧ c ∈ S := by
  intro l
  induction l with
  | nil => intro best hbest _ m c h; exact hbest m c h
  | cons w rest ih =>
    intro best hbest hsub m c h
    have hwS : w ∈ S := hsub w (List.mem_cons_self _ _)
    have hsub' : ∀ c ∈ rest, c ∈ S := fun c hc => hsub c (List.mem_cons_of_mem _ hc)
    cases hw : isMatch tol fc w with
    | true =>
      rw [scanColors, hw] at h
      simp only [if_pos rfl] at h
      exact hbest m c h
    | false =>
      rw [scanColors, hw] at h
      simp only [Bool.false_eq_true, if_false] at h
      cases best with
      | none =>
        refine ih (some (dist2 fc w, w)) ?_ hsub' m c h
        intro m' c' h'
        have h2 : (dist2 fc w, w) = (m', c') := Option.some.inj h'
        have hm' : m' = dist2 fc w := (congrArg Prod.fst h2).symm
        have hc' : c' = w := (congrArg Prod.snd h2).symm
        subst hc'
        exact ⟨hm', hw, hwS⟩
      | some mc =>
        obtain ⟨m', c'⟩ := mc
        dsimp only at h
        by_cases hd : dist2 fc w < m'
        · rw [if_pos hd] at h
          refine ih (some (dist2 fc w, w)) ?_ hsub' m c h
          intro m'' c'' h''
          have h2 : (dist2 fc w, w) = (m'', c'') := Option.some.inj h''
          have hm'' : m'' = dist2 fc w := (congrArg Prod.fst h2).symm
          have hc'' : c'' = w := (congrArg Prod.snd h2).symm
          subst hc''
          exact ⟨hm'', hw, hwS⟩
        · rw [if_neg hd] at h
          exact ih (some (m', c')) hbest hsub' m c h

theorem dist2_self (c : RGB) : dist2 c c = 0 := by
  unfold dist2
  ring

theorem maxDist2_val : maxDist2 = 149752575 / 256 := by
  unfold maxDist2 dist2
  norm_num

theorem dist2_ge_two {c1 c2 : RGB} (h1 : validRGB c1) (h2 : validRGB c2) (hne : c1 ≠ c2) :
    2 ≤ dist2 c1 c2 := by
  obtain ⟨h1r0, h1r1, h1g0, h1g1, h1b0, h1b1⟩ := h1
  obtain ⟨h2r0, h2r1, h2g0, h2g1, h2b0, h2b1⟩ := h2
  have q1r0 : (0 : ℚ) ≤ (c1.r : ℚ) := by exact_mod_cast h1r0
  have q1r1 : (c1.r : ℚ) ≤ 255 := by exact_mod_cast h1r1
  have q2r0 : (0 : ℚ) ≤ (c2.r : ℚ) := by exact_mod_cast h2r0
  have q2r1 : (c2.r : ℚ) ≤ 255 := by exact_mod_cast h2r1
  have hdiff : c1.r ≠ c2.r ∨ c1.g ≠ c2.g ∨ c1.b ≠ c2.b := by
    by_contra hcon
    push_neg at hcon
    obtain ⟨hr, hg, hb⟩ := hcon
    apply hne
    cases c1
    cases c2
    simp_all
  have hA : (2 : ℚ) ≤ 2 + ((c1.r : ℚ) + (c2.r : ℚ)) / 2 / 256 := by
    have : (0 : ℚ) ≤ ((c1.r : ℚ) + (c2.r : ℚ)) / 2 / 256 := by positivity
    linarith
  have hB : (2 : ℚ) ≤ 2 + (255 - ((c1.r : ℚ) + (c2.r : ℚ)) / 2) / 256 := by
    have h0 : (0 : ℚ) ≤ (255 - ((c1.r : ℚ) + (c2.r : ℚ)) / 2) / 256 := by
      apply div_nonneg _ (by norm_num)
      linarith
    linarith
  have hsq : ∀ z : ℤ, z ≠ 0 → (1 : ℚ) ≤ ((z : ℚ)) * ((z : ℚ)) := by
    intro z hz
    have h1' : 1 ≤ |z| := Int.one_le_abs hz
    have h2' : 1 ≤ |z| * |z| := by nlinarith
    have h3' : |z| * |z| = z * z := abs_mul_abs_self z
    rw [h3'] at h2'
    exact_mod_cast h2'
  have hrd : ((c1.r : ℚ) - (c2.r : ℚ)) * ((c1.r : ℚ) - (c2.r : ℚ)) =
      (((c1.r - c2.r : ℤ) : ℚ)) * (((c1.r - c2.r : ℤ) : ℚ)) := by push_cast; ring
  have hgd : ((c1.g : ℚ) - (c2.g : ℚ)) * ((c1.g : ℚ) - (c2.g : ℚ)) =
      (((c1.g - c2.g : ℤ) : ℚ)) * (((c1.g - c2.g : ℤ) : ℚ)) := by push_cast; ring
  have hbd : ((c1.b : ℚ) - (c2.b : ℚ)) * ((c1.b : ℚ) - (c2.b : ℚ)) =
      (((c1.b - c2.b : ℤ) : ℚ)) * (((c1.b - c2.b : ℤ) : ℚ)) := by push_cast; ring
  have hrd0 : (0 : ℚ) ≤ ((c1.r : ℚ) - (c2.r : ℚ)) * ((c1.r : ℚ) - (c2.r : ℚ)) :=
    mul_self_nonneg _
  have hgd0 : (0 : ℚ) ≤ ((c1.g : ℚ) - (c2.g : ℚ)) * ((c1.g : ℚ) - (c2.g : ℚ)) :=
    mul_self_nonneg _
  have hbd0 : (0 : ℚ) ≤ ((c1.b : ℚ) - (c2.b : ℚ)) * ((c1.b : ℚ) - (c2.b : ℚ)) :=
    mul_self_nonneg _
  unfold dist2
  rcases hdiff with hr | hg | hb
  · have h1' : (1 : ℚ) ≤ ((c1.r : ℚ) - (c2.r : ℚ)) * ((c1.r : ℚ) - (c2.r : ℚ)) := by
      rw [hrd]
      exact hsq _ (sub_ne_zero.mpr hr)
    nlinarith
  · have h1' : (1 : ℚ) ≤ ((c1.g : ℚ) - (c2.g : ℚ)) * ((c1.g : ℚ) - (c2.g : ℚ)) := by
      rw [hgd]
      exact hsq _ (sub_ne_zero.mpr hg)
    nlinarith
  · have h1' : (1 : ℚ) ≤ ((c1.b : ℚ) - (c2.b : ℚ)) * ((c1.b : ℚ) - (c2.b : ℚ)) := by
      rw [hbd]
      exact hsq _ (sub_ne_zero.mpr hb)
    nlinarith

theorem compareColorForFigma_none_of_match (tol : ℚ) (ws : List RGB) (fc : RGB)
    (h : ws.any (isMatch tol fc) = true) :
    compareColorForFigma tol ws fc = none := by
  unfold compareColorForFigma
  rcases hsc : scanColors tol fc ws none with ⟨fst, snd⟩
  have hfst : fst = true := by
    have h2 : fst = ws.any (isMatch tol fc) := by
      have h3 := scanColors_fst tol fc ws none
      rw [hsc] at h3
      exact h3
    rw [h2, h]
  subst hfst
  rfl

theorem compareColorForFigma_of_nomatch (tol : ℚ) (ws : List RGB) (fc : RGB)
    (hne : ws ≠ []) (hno : ws.any (isMatch tol fc) = false) :
    ∃ m c, compareColorForFigma tol ws fc =
        some { id := "", dtype := DifferenceType.color,
               severity :=
                 if deltaPctLt10 m then SeverityLevel.warning else SeverityLevel.critical,
               figmaValue := some (DiffVal.colorV fc),
               websiteValue := some (DiffVal.colorV c),
               delta := some m } ∧
      m = dist2 fc c ∧ isMatch tol fc c = false ∧ c ∈ ws := by
  rcases hsc : scanColors tol fc ws none with ⟨fst, snd⟩
  have hfst : fst = false := by
    have h2 : fst = ws.any (isMatch tol fc) := by
      have h3 := scanColors_fst tol fc ws none
      rw [hsc] at h3
      exact h3
    rw [h2, hno]
  subst hfst
  have hsome := scanColors_snd_of_nomatch tol fc ws hne hno
  rw [hsc] at hsome
  cases snd with
  | none => exact absurd hsome (by simp)
  | some mc =>
    obtain ⟨m, c⟩ := mc
    have hgood := scanColors_snd_good tol fc ws ws none
      (fun m' c' h' => nomatch h') (fun c' hc' => hc') m c (by rw [hsc])
    refine ⟨m, c, ?_, hgood⟩
    unfold compareColorForFigma
    rw [hsc]

theorem compareColorForFigma_shape (tol : ℚ) (ws : List RGB) (g : RGB) (d : Difference)
    (h : compareColorForFigma tol ws g = some d) :
    d.dtype = DifferenceType.color ∧ d.figmaValue = some (DiffVal.colorV g) := by
  unfold compareColorForFigma at h
  rcases hsc : scanColors tol g ws none with ⟨fst, snd⟩
  rw [hsc] at h
  cases fst
  · cases snd with
    | none => exact nomatch h
    | some mc =>
      obtain ⟨m, c⟩ := mc
      have hd := Option.some.inj h
      rw [← hd]
      exact ⟨rfl, rfl⟩
  · exact nomatch h

theorem countP_colorDiff_not_mem (tol : ℚ) (ws : List RGB) (fc : RGB) :
    ∀ l : List RGB, fc ∉ l →
      ((l.filterMap (compareColorForFigma tol ws)).countP (colorDiffFor fc)) = 0 := by
  intro l
  induction l with
  | nil => intro _; rfl
  | cons g rest ih =>
    intro hmem
    have hg : g ≠ fc := fun h => hmem (h ▸ List.mem_cons_self _ _)
    have hrest : fc ∉ rest := fun h => hmem (List.mem_cons_of_mem _ h)
    rw [List.filterMap_cons]
    cases hc : compareColorForFigma tol ws g with
    | none => exact ih hrest
    | some d =>
      rw [List.countP_cons]
      have hfv := (compareColorForFigma_shape tol ws g d hc).2
      have hfalse : colorDiffFor fc d = false := by
        unfold colorDiffFor
        rw [hfv]
        simp [hg]
      rw [hfalse]
      simp [ih hrest]

theorem countP_colorDiff_mem (tol : ℚ) (ws : List RGB) (fc : RGB) :
    ∀ l : List RGB, l.Nodup → fc ∈ l →
      ((l.filterMap (compareColorForFigma tol ws)).countP (colorDiffFor fc)) =
        if (compareColorForFigma tol ws fc).isSome then 1 else 0 := by
  intro l
  induction l with
  | nil => intro _ h; exact absurd h (List.not_mem_nil _)
  | cons g rest ih =>
    intro hnd hmem
    rcases List.mem_cons.mp hmem with hfcg | hrest
    · have hg : g = fc := hfcg.symm
      subst hg
      have hnotrest : g ∉ rest := (List.nodup_cons.mp hnd).1
      have h0 := countP_colorDiff_not_mem tol ws g rest hnotrest
      rw [List.filterMap_cons]
      cases hc : compareColorForFigma tol ws g with
      | none => simp [hc, h0]
      | some d =>
        have hfv := compareColorForFigma_shape tol ws g d hc
        have htrue : colorDiffFor g d = true := by
          unfold colorDiffFor
          rw [hfv.1, hfv.2]
          simp
        rw [List.countP_cons, htrue, h0]
        simp
    · have hg : g ≠ fc := by
        rintro rfl
        exact (List.nodup_cons.mp hnd).1 hrest
      have hihr := ih (List.nodup_cons.mp hnd).2 hrest
      rw [List.filterMap_cons]
      cases hc : compareColorForFigma tol ws g with
      | none => exact hihr
      | some d =>
        rw [List.countP_cons]
        have hfv := (compareColorForFigma_shape tol ws g d hc).2
        have hfalse : colorDiffFor fc d = false := by
          unfold colorDiffFor
          rw [hfv]
          simp [hg]
        rw [hfalse, hihr]
        simp

/-- Claim C2, counterexample: the design fill `#10b981` is (vacuously)
beyond tolerance of every color of an *empty* site color inventory, yet the
color pass emits no difference at all for it — not exactly one as
claimed. -/
theorem color_pass_cex :
    (⟨16, 185, 129⟩ : RGB) ∈ extractFigmaColors figCex.designTokens ∧
    (∀ w ∈ webCex.colors, isMatch 5 ⟨16, 185, 129⟩ w = false) ∧
    compareColors 5 figCex webCex = [] ∧
    ((compareColors 5 figCex webCex).countP (colorDiffFor ⟨16, 185, 129⟩)) = 0 := by
  refine ⟨by decide, ?_, rfl, rfl⟩
  intro w hw
  exact absurd hw (List.not_mem_nil _)

/-- Claim C2 (amended): in the color pass, for every design fill color
within `color_tolerance` (perceptually weighted distance) of some site
color no color difference is emitted; for every design fill color beyond
tolerance of all site colors, *provided the site color inventory is
non-empty*, exactly one color difference is emitted, its (rounded) delta
percentage is positive, and its severity is `warning` when the delta
percentage is below 10 and `critical` otherwise. -/
theorem color_pass_behaviour (tol : ℚ) (figma : FigmaData) (web : WebsiteData) (fc : RGB)
    (htol : 0 ≤ tol) (hvalid : ∀ c ∈ web.colors, validRGB c) (hfc : validRGB fc)
    (hmem : fc ∈ extractFigmaColors figma.designTokens) :
    ((∃ w ∈ web.colors, isMatch tol fc w = true) →
      ((compareColors tol figma web).countP (colorDiffFor fc)) = 0) ∧
    ((∀ w ∈ web.colors, isMatch tol fc w = false) → web.colors ≠ [] →
      ((compareColors tol figma web).countP (colorDiffFor fc)) = 1 ∧
      ∀ d ∈ compareColors tol figma web, colorDiffFor fc d = true →
        ∃ m, d.delta = some m ∧ deltaPctPos m = true ∧
          d.severity =
            (if deltaPctLt10 m then SeverityLevel.warning else SeverityLevel.critical)) := by
  have hnodup : (extractFigmaColors figma.designTokens).Nodup := by
    unfold extractFigmaColors
    exact List.nodup_dedup _
  constructor
  · rintro ⟨w, hwmem, hwmatch⟩
    have hany : (web.colors.dedup).any (isMatch tol fc) = true := by
      rw [List.any_eq_true]
      exact ⟨w, List.mem_dedup.mpr hwmem, hwmatch⟩
    have hnone := compareColorForFigma_none_of_match tol web.colors.dedup fc hany
    unfold compareColors
    rw [countP_colorDiff_mem tol web.colors.dedup fc _ hnodup hmem, hnone]
    rfl
  · intro hno hne
    have hnod : (web.colors.dedup).any (isMatch tol fc) = false := by
      rw [← Bool.not_eq_true, List.any_eq_true]
      rintro ⟨w, hwmem, hwmatch⟩
      exact absurd hwmatch (by rw [hno w (List.mem_dedup.mp hwmem)]; simp)
    have hned : web.colors.dedup ≠ [] := by
      obtain ⟨x, hx⟩ := List.exists_mem_of_ne_nil _ hne
      exact List.ne_nil_of_mem (List.mem_dedup.mpr hx)
    obtain ⟨m, c, heq, hm, hmf, hcw⟩ :=
      compareColorForFigma_of_nomatch tol web.colors.dedup fc hned hnod
    have hm2 : 2 ≤ m := by
      have hmatchf : ¬ (0 ≤ tol ∧ dist2 fc c ≤ tol * tol) := by
        intro hcon
        have : isMatch tol fc c = true := by
          unfold isMatch
          exact decide_eq_true hcon
        rw [hmf] at this
        exact absurd this (by simp)
      have hgt : tol * tol < dist2 fc c := by
        by_contra hle
        push_neg at hle
        exact hmatchf ⟨htol, hle⟩
      have hpos : 0 < dist2 fc c := lt_of_le_of_lt (mul_nonneg htol htol) hgt
      have hnefc : fc ≠ c := by
        rintro rfl
        rw [dist2_self] at hpos
        exact absurd hpos (by norm_num)
      have := dist2_ge_two hfc (hvalid c (List.mem_dedup.mp hcw)) hnefc
      rw [hm]
      exact this
    have hpospct : deltaPctPos m = true := by
      unfold deltaPctPos
      apply decide_eq_true
      rw [maxDist2_val]
      linarith
    constructor
    · unfold compareColors
      rw [countP_colorDiff_mem tol web.colors.dedup fc _ hnodup hmem, heq]
      rfl
    · intro d hd hcd
      obtain ⟨g, hgmem, hcg⟩ := List.mem_filterMap.mp hd
      have hshape := compareColorForFigma_shape tol web.colors.dedup g d hcg
      have hgfc : g = fc := by
        unfold colorDiffFor at hcd
        rw [hshape.2] at hcd
        simp only [Bool.and_eq_true, beq_iff_eq] at hcd
        have h3 : some (DiffVal.colorV g) = some (DiffVal.colorV fc) := hcd.2
        injection h3 with h4
        injection h4
      subst hgfc
      rw [heq] at hcg
      have hdval := Option.some.inj hcg
      rw [← hdval]
      exact ⟨m, rfl, hpospct, rfl⟩

/-- Witness for claim C2: `#7c3aed` against a near-identical site color
(within the default tolerance 5) yields no color difference; against only
the distant `#10b981` it yields exactly one. -/
theorem color_pass_behaviour_witness :
    ((compareColors 5 figWit webMatch).countP (colorDiffFor ⟨124, 58, 237⟩)) = 0 ∧
    ((compareColors 5 figWit webFar).countP (colorDiffFor ⟨124, 58, 237⟩)) = 1 := by
  have hmatch : isMatch 5 ⟨124, 58, 237⟩ ⟨124, 58, 238⟩ = true := by
    unfold isMatch
    apply decide_eq_true
    refine ⟨by norm_num, ?_⟩
    unfold dist2
    push_cast
    norm_num
  have hfar : isMatch 5 ⟨124, 58, 237⟩ ⟨16, 185, 129⟩ = false := by
    unfold isMatch
    apply decide_eq_false
    intro hcon
    have h2 := hcon.2
    unfold dist2 at h2
    push_cast at h2
    norm_num at h2
  constructor
  · exact (color_pass_behaviour 5 figWit webMatch ⟨124, 58, 237⟩ (by norm_num)
      (by decide) (by decide) (by decide)).1 ⟨⟨124, 58, 238⟩, by decide, hmatch⟩
  · refine ((color_pass_behaviour 5 figWit webFar ⟨124, 58, 237⟩ (by norm_num)
      (by decide) (by decide) (by decide)).2 ?_ (by decide)).1
    intro w hw
    have hw' : w = ⟨16, 185, 129⟩ := by simpa [webFar] using hw
    rw [hw']
    exact hfar

end FigmaDiff
